import Mathlib

/-!
# QupZilla icon provider (`src/lib/tools/iconprovider.cpp`)

A shallow embedding of the favicon cache of `IconProvider`: the in-memory buffer
`m_iconBuffer`, the lazily loaded placeholder `m_emptyWebImage`, the `icons` table of
the profile database, and the operations `saveIcon`, `imageForUrl`, `imageForDomain`,
`saveIconsToDatabase` and `clearIconsDatabase`.

Qt values are represented by what the icon provider reads off them:

* a `QUrl` by its `scheme()`, `host()`, `path()`, `toString()` and
  `toEncoded(QUrl::RemoveFragment)`;
* a `QImage` is either the null image `QImage()` or carries pixel data; `operator==`
  is structural, all null images being equal;
* a `QByteArray` is a list of bytes.

The `icons` table is a list of rows in insertion order, and a statement handed to
`SqlDatabase::execAsync` is applied before the next statement runs.
-/

namespace IconProvider

/-! ## Qt values -/

/-- The bytes of a `QByteArray`. -/
abbrev QByteArray := List Nat

/-- A `QImage`: the null image `QImage()`, or an image with pixel data. -/
inductive QImage where
  | null : QImage
  | pixels (data : List Nat) : QImage
deriving DecidableEq, Repr

/-- Qt's `QImage::isNull()`. -/
def QImage.isNull : QImage → Bool
  | QImage.null => true
  | QImage.pixels _ => false

/-- A `QUrl`, given by the components and renderings the icon provider reads; two URLs
are equal when these agree. -/
structure QUrl where
  /-- The value of `QUrl::scheme()`. -/
  scheme : String
  /-- The value of `QUrl::host()`. -/
  host : String
  /-- The value of `QUrl::path()`. -/
  path : String
  /-- The value of `QUrl::toString()`. -/
  toString : String
  /-- The value of `QUrl::toEncoded(QUrl::RemoveFragment)`. -/
  toEncoded : String
deriving DecidableEq, Repr

/-- A plain hierarchical URL `scheme://host/path#fragment` without user info, port or
query, whose characters need no percent-encoding: `toString()` shows the fragment,
`toEncoded(QUrl::RemoveFragment)` drops it. -/
def plainUrl (scheme host path fragment : String) : QUrl :=
  { scheme := scheme
    host := host
    path := path
    toString := scheme ++ "://" ++ host ++ path ++ (if fragment = "" then "" else "#" ++ fragment)
    toEncoded := scheme ++ "://" ++ host ++ path }

/-- Qt's `QString::startsWith(p)`, case sensitive: `p` is an initial segment of `s`. -/
def startsWith (s p : String) : Bool :=
  p.data.isPrefixOf s.data

/-- Whether `p` occurs in `s` as a contiguous run of characters. -/
def containsString (s p : String) : Bool :=
  s.data.tails.any (fun t => p.data.isPrefixOf t)

/-! ## The state -/

/-- The buffered pair, `typedef QPair<QUrl, QImage> BufferedIcon`. -/
abbrev BufferedIcon := QUrl × QImage

/-- A row of the `icons` table. The `id` column is only ever selected to test whether a
row exists, so a row is kept as its `url` and `icon` columns. -/
structure IconRow where
  url : String
  icon : QByteArray
deriving DecidableEq, Repr

/-- What the icon provider is given by the rest of the application. -/
structure Env where
  /-- The value of `mApp->isPrivate()`. -/
  isPrivate : Bool
  /-- The image `QPixmap(":icons/other/empty-page.png").toImage()`. -/
  emptyPage : QImage
  /-- The bytes written by `QImage::save(&buffer, "PNG")`. -/
  savePng : QImage → QByteArray
  /-- The decoder `QImage::fromData`. -/
  fromData : QByteArray → QImage

/-- The mutable state touched by the icon provider. -/
structure State where
  /-- The member `IconProvider::m_iconBuffer`. -/
  m_iconBuffer : List BufferedIcon
  /-- The member `IconProvider::m_emptyWebImage`. -/
  m_emptyWebImage : QImage
  /-- The rows of the `icons` table, oldest first. -/
  icons : List IconRow
  /-- How many times `m_autoSaver->changeOccurred()` has been called. -/
  changeOccurred : Nat
deriving DecidableEq, Repr

/-! ## The `icons` table -/

/-- The query `SELECT id FROM icons WHERE url = ?` followed by `query.next()`: is there a row. -/
def selectIdWhereUrl (icons : List IconRow) (url : String) : Bool :=
  icons.any (fun r => decide (r.url = url))

/-- The statement `UPDATE icons SET icon = ? WHERE url = ?`. -/
def updateIcon (icons : List IconRow) (icon : QByteArray) (url : String) : List IconRow :=
  icons.map (fun r => if r.url = url then { r with icon := icon } else r)

/-- The statement `INSERT INTO icons (icon, url) VALUES (?,?)`. -/
def insertIcon (icons : List IconRow) (icon : QByteArray) (url : String) : List IconRow :=
  icons ++ [{ url := url, icon := icon }]

/-- Modelled from the spec: `SELECT icon FROM icons WHERE url GLOB ? LIMIT 1` bound to
`escapeSqlGlobString(u) + "*"`, followed by `query.next()`. `QzTools::escapeSqlGlobString`
and the SQL engine are not among the sources; the spec has the store queried "for a row
whose URL matches the query URL (fragment stripped) as a prefix". The first such row in
table order is taken. -/
def selectIconGlobStartingWith (icons : List IconRow) (u : String) : Option QByteArray :=
  (icons.find? (fun r => startsWith r.url u)).map IconRow.icon

/-- Modelled from the spec: `SELECT icon FROM icons WHERE url GLOB ? LIMIT 1` bound to
`"*" + escapeSqlGlobString(host) + "*"`, followed by `query.next()`.
`QzTools::escapeSqlGlobString` and the SQL engine are not among the sources; the spec
calls this the store's "substring-on-host match". The first such row in table order is
taken. -/
def selectIconGlobContaining (icons : List IconRow) (host : String) : Option QByteArray :=
  (icons.find? (fun r => containsString r.url host)).map IconRow.icon

/-! ## The operations -/

/-- The function `IconProvider::emptyWebImage()`: loads the placeholder on first use, then returns the
cached image. -/
def emptyWebImage (env : Env) (s : State) : QImage × State :=
  let s1 := if s.m_emptyWebImage.isNull then { s with m_emptyWebImage := env.emptyPage } else s
  (s1.m_emptyWebImage, s1)

/-- The schemes `saveIcon` does not record icons for. -/
def ignoredSchemes : List String :=
  ["qupzilla", "ftp", "file", "view-source"]

/-- The function `IconProvider::saveIcon(WebView* view)`, with `url` for `view->url()` and `icon` for
`view->icon().pixmap(32).toImage()`. -/
def saveIcon (env : Env) (s : State) (url : QUrl) (icon : QImage) : State :=
  if env.isPrivate then s
  else if ignoredSchemes.any (fun scheme => decide (url.scheme = scheme)) then s
  else
    let item : BufferedIcon := (url, icon)
    let r := emptyWebImage env s
    if item.2 = r.1 then r.2
    else if item ∈ r.2.m_iconBuffer then r.2
    else
      { r.2 with
        changeOccurred := r.2.changeOccurred + 1
        m_iconBuffer := r.2.m_iconBuffer ++ [item] }

/-- The value returned when a lookup finds nothing:
`allowEmpty ? QImage() : IconProvider::emptyWebImage()`. -/
def fallbackImage (env : Env) (s : State) (allowEmpty : Bool) : QImage × State :=
  if allowEmpty then (QImage.null, s) else emptyWebImage env s

/-- The buffer loop of `imageForUrl`: the first buffered icon whose URL string starts
with the string of `url`. -/
def bufferedForUrl (buffer : List BufferedIcon) (url : QUrl) : Option QImage :=
  match buffer with
  | [] => none
  | ic :: rest =>
    if startsWith ic.1.toString url.toString then some ic.2 else bufferedForUrl rest url

/-- The function `IconProvider::imageForUrl(const QUrl &url, bool allowEmpty)`. -/
def imageForUrl (env : Env) (s : State) (url : QUrl) (allowEmpty : Bool) : QImage × State :=
  if url.path = "" then fallbackImage env s allowEmpty
  else
    match bufferedForUrl s.m_iconBuffer url with
    | some image => (image, s)
    | none =>
      match selectIconGlobStartingWith s.icons url.toEncoded with
      | some ba => (env.fromData ba, s)
      | none => fallbackImage env s allowEmpty

/-- The buffer loop of `imageForDomain`: the first buffered icon whose URL has the host
of `url`. -/
def bufferedForDomain (buffer : List BufferedIcon) (url : QUrl) : Option QImage :=
  match buffer with
  | [] => none
  | ic :: rest =>
    if ic.1.host = url.host then some ic.2 else bufferedForDomain rest url

/-- The function `IconProvider::imageForDomain(const QUrl &url, bool allowEmpty)`. -/
def imageForDomain (env : Env) (s : State) (url : QUrl) (allowEmpty : Bool) : QImage × State :=
  if url.host = "" then fallbackImage env s allowEmpty
  else
    match bufferedForDomain s.m_iconBuffer url with
    | some image => (image, s)
    | none =>
      match selectIconGlobContaining s.icons url.host with
      | some ba => (env.fromData ba, s)
      | none => fallbackImage env s allowEmpty

/-- The body of the loop of `saveIconsToDatabase`: look for a row with the icon's URL,
then update it or insert a new one. -/
def saveIconToDatabase (env : Env) (icons : List IconRow) (ic : BufferedIcon) : List IconRow :=
  if selectIdWhereUrl icons ic.1.toEncoded then
    updateIcon icons (env.savePng ic.2) ic.1.toEncoded
  else
    insertIcon icons (env.savePng ic.2) ic.1.toEncoded

/-- The loop of `saveIconsToDatabase` over the buffered icons, oldest first. -/
def saveIconsLoop (env : Env) (icons : List IconRow) : List BufferedIcon → List IconRow
  | [] => icons
  | ic :: rest => saveIconsLoop env (saveIconToDatabase env icons ic) rest

/-- The function `IconProvider::saveIconsToDatabase()`. -/
def saveIconsToDatabase (env : Env) (s : State) : State :=
  { s with
    icons := saveIconsLoop env s.icons s.m_iconBuffer
    m_iconBuffer := [] }

/-- The function `IconProvider::clearIconsDatabase()`: `DELETE FROM icons`, `VACUUM`, clear the buffer. -/
def clearIconsDatabase (s : State) : State :=
  { s with icons := [], m_iconBuffer := [] }

/-! ## Call sequences -/

/-- A call that changes the buffer or the table. -/
inductive Call where
  | saveIcon (url : QUrl) (icon : QImage) : Call
  | saveIconsToDatabase : Call
  | clearIconsDatabase : Call
deriving DecidableEq, Repr

/-- The state after one call. -/
def step (env : Env) (s : State) : Call → State
  | Call.saveIcon url icon => saveIcon env s url icon
  | Call.saveIconsToDatabase => saveIconsToDatabase env s
  | Call.clearIconsDatabase => clearIconsDatabase s

/-- The state after a sequence of calls, first call first. -/
def run (env : Env) (s : State) : List Call → State
  | [] => s
  | c :: cs => run env (step env s c) cs

/-! ## The write-back protocol in the words of the specification -/

/-- Reconciling one record `(url, icon)` against the table, as the specification words it:
if a row with that URL exists, the rows keep their number, order and URLs, the rows with
that URL get the new icon bytes and the other rows keep theirs; otherwise one row
`(url, icon)` is added and the rows already there are kept. -/
def Reconciled (before : List IconRow) (url : String) (icon : QByteArray)
    (after : List IconRow) : Prop :=
  if ∃ r ∈ before, r.url = url then
    List.Forall₂
      (fun old new => new.url = old.url ∧ new.icon = if old.url = url then icon else old.icon)
      before after
  else
    after = before ++ [{ url := url, icon := icon }]

/-- Reconciling the buffered records one after the other, oldest first, each against the
table left by the one before it. -/
inductive ReconciledInOrder (env : Env) : List IconRow → List BufferedIcon → List IconRow → Prop
  | nil (icons : List IconRow) : ReconciledInOrder env icons [] icons
  | cons (icons next final : List IconRow) (ic : BufferedIcon) (rest : List BufferedIcon) :
      Reconciled icons ic.1.toEncoded (env.savePng ic.2) next →
      ReconciledInOrder env next rest final →
      ReconciledInOrder env icons (ic :: rest) final

/-! ## What a lookup can return -/

/-- The buffer holds no null image, every row of the table decodes to a non-null image,
and the placeholder handed out is `placeholder`. -/
def LooksUpNonNull (env : Env) (placeholder : QImage) (s : State) : Prop :=
  (∀ ic ∈ s.m_iconBuffer, ic.2 ≠ QImage.null) ∧
    (∀ r ∈ s.icons, env.fromData r.icon ≠ QImage.null) ∧
    (emptyWebImage env s).1 = placeholder

/-! ## Sample values -/

/-- A sample encoder: a null image saves no bytes, any other image a header byte and
its data. -/
def samplePng : QImage → QByteArray
  | QImage.null => []
  | QImage.pixels data => 137 :: data

/-- A sample decoder, undoing `samplePng`; bytes without the header give a null image. -/
def sampleFromData : QByteArray → QImage
  | 137 :: data => QImage.pixels data
  | _ => QImage.null

/-- A sample environment: not private, with a non-null placeholder. -/
def sampleEnv : Env :=
  { isPrivate := false
    emptyPage := QImage.pixels [0]
    savePng := samplePng
    fromData := sampleFromData }

/-- The state of a freshly started provider with an empty `icons` table. -/
def emptyState : State :=
  { m_iconBuffer := []
    m_emptyWebImage := QImage.null
    icons := []
    changeOccurred := 0 }

/-! ## Basic facts -/

theorem emptyWebImage_fst (env : Env) (s : State) :
    (emptyWebImage env s).1 =
      if s.m_emptyWebImage.isNull = true then env.emptyPage else s.m_emptyWebImage := by
  unfold emptyWebImage
  by_cases h : s.m_emptyWebImage.isNull = true <;> simp [h]

theorem emptyWebImage_buffer (env : Env) (s : State) :
    (emptyWebImage env s).2.m_iconBuffer = s.m_iconBuffer := by
  unfold emptyWebImage
  by_cases h : s.m_emptyWebImage.isNull = true <;> simp [h]

theorem emptyWebImage_icons (env : Env) (s : State) :
    (emptyWebImage env s).2.icons = s.icons := by
  unfold emptyWebImage
  by_cases h : s.m_emptyWebImage.isNull = true <;> simp [h]

theorem emptyWebImage_changeOccurred (env : Env) (s : State) :
    (emptyWebImage env s).2.changeOccurred = s.changeOccurred := by
  unfold emptyWebImage
  by_cases h : s.m_emptyWebImage.isNull = true <;> simp [h]

/-- The placeholder handed out does not depend on the buffer, the table or the counter. -/
theorem emptyWebImage_fst_congr (env : Env) (s t : State)
    (h : t.m_emptyWebImage = s.m_emptyWebImage) :
    (emptyWebImage env t).1 = (emptyWebImage env s).1 := by
  rw [emptyWebImage_fst, emptyWebImage_fst, h]

/-- Loading the placeholder does not change the placeholder handed out afterwards. -/
theorem emptyWebImage_fst_idem (env : Env) (s : State) :
    (emptyWebImage env (emptyWebImage env s).2).1 = (emptyWebImage env s).1 := by
  rw [emptyWebImage_fst env (emptyWebImage env s).2]
  unfold emptyWebImage
  by_cases h : s.m_emptyWebImage.isNull = true
  · simp only [h, if_true]
    by_cases h2 : env.emptyPage.isNull = true <;> simp [h2]
  · simp [h]

theorem startsWith_iff (s p : String) : startsWith s p = true ↔ p.data <+: s.data := by
  unfold startsWith
  exact List.isPrefixOf_iff_prefix

theorem bufferedForUrl_eq_none (buffer : List BufferedIcon) (url : QUrl) :
    bufferedForUrl buffer url = none ↔
      ∀ ic ∈ buffer, startsWith ic.1.toString url.toString = false := by
  induction buffer with
  | nil => simp [bufferedForUrl]
  | cons ic rest ih =>
    unfold bufferedForUrl
    by_cases h : startsWith ic.1.toString url.toString = true
    · simp [h]
    · simp [h, ih]

theorem bufferedForUrl_eq_some (buffer : List BufferedIcon) (url : QUrl) (image : QImage) :
    bufferedForUrl buffer url = some image ↔
      ∃ before ic after, buffer = before ++ ic :: after ∧
        (∀ x ∈ before, startsWith x.1.toString url.toString = false) ∧
        startsWith ic.1.toString url.toString = true ∧ ic.2 = image := by
  induction buffer with
  | nil => simp [bufferedForUrl]
  | cons ic rest ih =>
    unfold bufferedForUrl
    by_cases h : startsWith ic.1.toString url.toString = true
    · simp only [h, if_true, Option.some.injEq]
      constructor
      · intro e
        exact ⟨[], ic, rest, rfl, by simp, h, e⟩
      · rintro ⟨before, ic2, after, e, hb, hm, hi⟩
        cases before with
        | nil =>
          simp only [List.nil_append, List.cons.injEq] at e
          rw [e.1]; exact hi
        | cons b bs =>
          simp only [List.cons_append, List.cons.injEq] at e
          have := hb b (by simp)
          rw [← e.1, h] at this
          exact absurd this (by simp)
    · simp only [h, if_false, Bool.false_eq_true]
      rw [ih]
      constructor
      · rintro ⟨before, ic2, after, e, hb, hm, hi⟩
        refine ⟨ic :: before, ic2, after, by simp [e], ?_, hm, hi⟩
        intro x hx
        rcases List.mem_cons.1 hx with hx | hx
        · subst hx; simpa using h
        · exact hb x hx
      · rintro ⟨before, ic2, after, e, hb, hm, hi⟩
        cases before with
        | nil =>
          simp only [List.nil_append, List.cons.injEq] at e
          rw [← e.1] at hm
          exact absurd hm h
        | cons b bs =>
          simp only [List.cons_append, List.cons.injEq] at e
          exact ⟨bs, ic2, after, e.2, fun x hx => hb x (by simp [hx]), hm, hi⟩

theorem bufferedForDomain_eq_none (buffer : List BufferedIcon) (url : QUrl) :
    bufferedForDomain buffer url = none ↔ ∀ ic ∈ buffer, ic.1.host ≠ url.host := by
  induction buffer with
  | nil => simp [bufferedForDomain]
  | cons ic rest ih =>
    unfold bufferedForDomain
    by_cases h : ic.1.host = url.host
    · simp [h]
    · simp [h, ih]

theorem bufferedForDomain_eq_some (buffer : List BufferedIcon) (url : QUrl) (image : QImage) :
    bufferedForDomain buffer url = some image ↔
      ∃ before ic after, buffer = before ++ ic :: after ∧
        (∀ x ∈ before, x.1.host ≠ url.host) ∧ ic.1.host = url.host ∧ ic.2 = image := by
  induction buffer with
  | nil => simp [bufferedForDomain]
  | cons ic rest ih =>
    unfold bufferedForDomain
    by_cases h : ic.1.host = url.host
    · simp only [h, if_true, Option.some.injEq]
      constructor
      · intro e
        exact ⟨[], ic, rest, rfl, by simp, h, e⟩
      · rintro ⟨before, ic2, after, e, hb, hm, hi⟩
        cases before with
        | nil =>
          simp only [List.nil_append, List.cons.injEq] at e
          rw [e.1]; exact hi
        | cons b bs =>
          simp only [List.cons_append, List.cons.injEq] at e
          have := hb b (by simp)
          rw [← e.1] at this
          exact absurd h this
    · simp only [h, if_false]
      rw [ih]
      constructor
      · rintro ⟨before, ic2, after, e, hb, hm, hi⟩
        refine ⟨ic :: before, ic2, after, by simp [e], ?_, hm, hi⟩
        intro x hx
        rcases List.mem_cons.1 hx with hx | hx
        · subst hx; exact h
        · exact hb x hx
      · rintro ⟨before, ic2, after, e, hb, hm, hi⟩
        cases before with
        | nil =>
          simp only [List.nil_append, List.cons.injEq] at e
          rw [← e.1] at hm
          exact absurd hm h
        | cons b bs =>
          simp only [List.cons_append, List.cons.injEq] at e
          exact ⟨bs, ic2, after, e.2, fun x hx => hb x (by simp [hx]), hm, hi⟩

/-! ## `saveIcon` -/

theorem saveIcon_rejected (env : Env) (s : State) (url : QUrl) (icon : QImage)
    (h : env.isPrivate = true ∨ url.scheme ∈ ignoredSchemes ∨ icon = (emptyWebImage env s).1) :
    (saveIcon env s url icon).m_iconBuffer = s.m_iconBuffer ∧
      (saveIcon env s url icon).changeOccurred = s.changeOccurred := by
  unfold saveIcon
  by_cases hp : env.isPrivate = true
  · simp [hp]
  · by_cases hs : url.scheme ∈ ignoredSchemes
    · have : ignoredSchemes.any (fun scheme => decide (url.scheme = scheme)) = true := by
        rw [List.any_eq_true]; exact ⟨url.scheme, hs, by simp⟩
      simp [hp, this]
    · have hi : icon = (emptyWebImage env s).1 := by
        rcases h with h | h | h
        · exact absurd h hp
        · exact absurd h hs
        · exact h
      have : ignoredSchemes.any (fun scheme => decide (url.scheme = scheme)) = false := by
        rw [Bool.eq_false_iff]; intro h2
        rw [List.any_eq_true] at h2
        obtain ⟨x, hx, hd⟩ := h2
        simp only [decide_eq_true_eq] at hd
        exact hs (hd ▸ hx)
      simp [hp, this, hi, emptyWebImage_buffer, emptyWebImage_changeOccurred]

theorem saveIcon_accepted (env : Env) (s : State) (url : QUrl) (icon : QImage)
    (hp : env.isPrivate = false) (hs : url.scheme ∉ ignoredSchemes)
    (hi : icon ≠ (emptyWebImage env s).1) :
    saveIcon env s url icon =
      if (url, icon) ∈ s.m_iconBuffer then (emptyWebImage env s).2
      else
        { (emptyWebImage env s).2 with
          changeOccurred := s.changeOccurred + 1
          m_iconBuffer := s.m_iconBuffer ++ [(url, icon)] } := by
  have : ignoredSchemes.any (fun scheme => decide (url.scheme = scheme)) = false := by
    rw [Bool.eq_false_iff]; intro h2
    rw [List.any_eq_true] at h2
    obtain ⟨x, hx, hd⟩ := h2
    simp only [decide_eq_true_eq] at hd
    exact hs (hd ▸ hx)
  unfold saveIcon
  simp only [hp, this, Bool.false_eq_true, if_false, hi, emptyWebImage_buffer,
    emptyWebImage_changeOccurred]

/-- Whatever `saveIcon` does, the placeholder handed out afterwards is the same. -/
theorem saveIcon_emptyWebImage (env : Env) (s : State) (url : QUrl) (icon : QImage) :
    (emptyWebImage env (saveIcon env s url icon)).1 = (emptyWebImage env s).1 := by
  unfold saveIcon
  dsimp only
  split_ifs
  · rfl
  · rfl
  · exact emptyWebImage_fst_idem env s
  · exact emptyWebImage_fst_idem env s
  · refine Eq.trans (emptyWebImage_fst_congr env (emptyWebImage env s).2 _ ?_)
      (emptyWebImage_fst_idem env s)
    rfl

theorem saveIcon_icons (env : Env) (s : State) (url : QUrl) (icon : QImage) :
    (saveIcon env s url icon).icons = s.icons := by
  unfold saveIcon
  dsimp only
  split_ifs <;> simp [emptyWebImage_icons]

/-- A call of `saveIcon` keeps the buffered icons in place and adds at most the new one at the end. -/
theorem saveIcon_buffer_cases (env : Env) (s : State) (url : QUrl) (icon : QImage) :
    ((saveIcon env s url icon).m_iconBuffer = s.m_iconBuffer ∧
        (saveIcon env s url icon).changeOccurred = s.changeOccurred) ∨
      ((url, icon) ∉ s.m_iconBuffer ∧
        (saveIcon env s url icon).m_iconBuffer = s.m_iconBuffer ++ [(url, icon)] ∧
        (saveIcon env s url icon).changeOccurred = s.changeOccurred + 1) := by
  by_cases h : env.isPrivate = true ∨ url.scheme ∈ ignoredSchemes ∨
      icon = (emptyWebImage env s).1
  · exact Or.inl (saveIcon_rejected env s url icon h)
  · simp only [not_or] at h
    obtain ⟨hp, hs, hi⟩ := h
    rw [saveIcon_accepted env s url icon (by simpa using hp) hs hi]
    by_cases hm : (url, icon) ∈ s.m_iconBuffer
    · left
      simp [hm, emptyWebImage_buffer, emptyWebImage_changeOccurred]
    · right
      simp [hm]

/-! ## Recording an icon -/

/-- C4: `saveIcon(url, image)` in private mode, for a URL whose scheme is `qupzilla`,
`ftp`, `file` or `view-source`, or for an image equal to the placeholder leaves the
buffer as it is and does not signal the autosaver; otherwise a pair `(url, image)` that
is not buffered yet is appended at the end of the buffer, the earlier records staying in
place, and the autosaver is signalled once. The autosaver is signalled at most once, and
it is signalled exactly when the buffer grew. -/
theorem saveIcon_gate_append_signal (env : Env) (s : State) (url : QUrl) (icon : QImage) :
    ((env.isPrivate = true ∨ url.scheme ∈ ["qupzilla", "ftp", "file", "view-source"] ∨
          icon = (emptyWebImage env s).1) →
        (saveIcon env s url icon).m_iconBuffer = s.m_iconBuffer ∧
          (saveIcon env s url icon).changeOccurred = s.changeOccurred) ∧
      (¬(env.isPrivate = true ∨ url.scheme ∈ ["qupzilla", "ftp", "file", "view-source"] ∨
          icon = (emptyWebImage env s).1) →
        (url, icon) ∉ s.m_iconBuffer →
        (saveIcon env s url icon).m_iconBuffer = s.m_iconBuffer ++ [(url, icon)] ∧
          (saveIcon env s url icon).changeOccurred = s.changeOccurred + 1) ∧
      ((saveIcon env s url icon).changeOccurred = s.changeOccurred ∨
        (saveIcon env s url icon).changeOccurred = s.changeOccurred + 1) ∧
      ((saveIcon env s url icon).changeOccurred = s.changeOccurred + 1 ↔
        s.m_iconBuffer.length < (saveIcon env s url icon).m_iconBuffer.length) := by
  refine ⟨fun h => saveIcon_rejected env s url icon h, ?_, ?_, ?_⟩
  · intro h hm
    simp only [not_or] at h
    obtain ⟨hp, hs, hi⟩ := h
    rw [saveIcon_accepted env s url icon (by simpa using hp) hs hi]
    simp [hm]
  · rcases saveIcon_buffer_cases env s url icon with h | h
    · exact Or.inl h.2
    · exact Or.inr h.2.2
  · rcases saveIcon_buffer_cases env s url icon with h | h
    · rw [h.1, h.2]
      simp
    · rw [h.2.1, h.2.2]
      simp

/-- C4 at a sample call: an `https` icon recorded into an empty buffer is buffered and
signalled. -/
theorem saveIcon_gate_append_signal_witness :
    (saveIcon sampleEnv emptyState (plainUrl "https" "example.com" "/favicon.ico" "")
        (QImage.pixels [1, 2, 3])).m_iconBuffer =
        emptyState.m_iconBuffer ++
          [(plainUrl "https" "example.com" "/favicon.ico" "", QImage.pixels [1, 2, 3])] ∧
      (saveIcon sampleEnv emptyState (plainUrl "https" "example.com" "/favicon.ico" "")
        (QImage.pixels [1, 2, 3])).changeOccurred = emptyState.changeOccurred + 1 :=
  (saveIcon_gate_append_signal sampleEnv emptyState
    (plainUrl "https" "example.com" "/favicon.ico" "") (QImage.pixels [1, 2, 3])).2.1
    (by decide) (by decide)

/-! ## Looking an icon up -/

theorem imageForUrl_of_buffered (env : Env) (s : State) (url : QUrl) (allowEmpty : Bool)
    (image : QImage) (hp : url.path ≠ "")
    (hb : bufferedForUrl s.m_iconBuffer url = some image) :
    imageForUrl env s url allowEmpty = (image, s) := by
  unfold imageForUrl
  simp [hp, hb]

theorem imageForDomain_of_buffered (env : Env) (s : State) (url : QUrl) (allowEmpty : Bool)
    (image : QImage) (hp : url.host ≠ "")
    (hb : bufferedForDomain s.m_iconBuffer url = some image) :
    imageForDomain env s url allowEmpty = (image, s) := by
  unfold imageForDomain
  simp [hp, hb]

theorem imageForUrl_of_miss (env : Env) (s : State) (url : QUrl) (allowEmpty : Bool)
    (hb : bufferedForUrl s.m_iconBuffer url = none)
    (hq : selectIconGlobStartingWith s.icons url.toEncoded = none) :
    imageForUrl env s url allowEmpty = fallbackImage env s allowEmpty := by
  unfold imageForUrl
  simp [hb, hq]

theorem imageForDomain_of_miss (env : Env) (s : State) (url : QUrl) (allowEmpty : Bool)
    (hb : bufferedForDomain s.m_iconBuffer url = none)
    (hq : selectIconGlobContaining s.icons url.host = none) :
    imageForDomain env s url allowEmpty = fallbackImage env s allowEmpty := by
  unfold imageForDomain
  simp [hb, hq]

theorem fallbackImage_fst (env : Env) (s : State) (allowEmpty : Bool) :
    (fallbackImage env s allowEmpty).1 =
      if allowEmpty = true then QImage.null else (emptyWebImage env s).1 := by
  unfold fallbackImage
  cases allowEmpty <;> simp

/-- C6: the buffer loop of `imageForUrl` gives the image of the earliest buffered record
whose URL string starts with the query's URL string, and nothing when no record does; a
record matches exactly when the query string is an initial segment of the record's string,
so a record whose string is a proper initial segment of the query's does not match; and
for a query with a non-empty path a record found by the loop is what `imageForUrl`
returns, whatever the table holds and whatever `allowEmpty` is. -/
theorem bufferedForUrl_earliest_match (buffer : List BufferedIcon) (url : QUrl) :
    (∀ image, bufferedForUrl buffer url = some image ↔
        ∃ before ic after, buffer = before ++ ic :: after ∧
          (∀ x ∈ before, startsWith x.1.toString url.toString = false) ∧
          startsWith ic.1.toString url.toString = true ∧ ic.2 = image) ∧
      (bufferedForUrl buffer url = none ↔
        ∀ ic ∈ buffer, startsWith ic.1.toString url.toString = false) ∧
      (∀ stored : QUrl, startsWith stored.toString url.toString = true ↔
        ∃ rest : List Char, stored.toString.data = url.toString.data ++ rest) ∧
      (∀ stored : QUrl, (∃ rest : List Char, rest ≠ [] ∧
          url.toString.data = stored.toString.data ++ rest) →
        startsWith stored.toString url.toString = false) ∧
      (∀ (env : Env) (m : QImage) (icons : List IconRow) (n : Nat) (allowEmpty : Bool)
          (image : QImage), url.path ≠ "" → bufferedForUrl buffer url = some image →
        (imageForUrl env ⟨buffer, m, icons, n⟩ url allowEmpty).1 = image) := by
  refine ⟨bufferedForUrl_eq_some buffer url, bufferedForUrl_eq_none buffer url, ?_, ?_, ?_⟩
  · intro stored
    rw [startsWith_iff]
    constructor
    · rintro ⟨t, ht⟩; exact ⟨t, ht.symm⟩
    · rintro ⟨t, ht⟩; exact ⟨t, ht.symm⟩
  · rintro stored ⟨rest, hne, hr⟩
    rw [Bool.eq_false_iff, Ne, startsWith_iff]
    rintro ⟨t, ht⟩
    have hl := congrArg List.length hr
    rw [← ht] at hl
    simp only [List.length_append] at hl
    have : rest.length = 0 := by omega
    exact hne (List.length_eq_zero.1 this)
  · intro env m icons n allowEmpty image hp hb
    rw [imageForUrl_of_buffered env ⟨buffer, m, icons, n⟩ url allowEmpty image hp hb]

/-- C6 at the sample buffer `[(https://example.com/favicon, X)]`: the loop finds `X` for
`https://example.com` and nothing for `https://other.com`, and `imageForUrl` for
`https://example.com/` returns `X`. -/
theorem bufferedForUrl_earliest_match_witness :
    bufferedForUrl [(plainUrl "https" "example.com" "/favicon" "", QImage.pixels [7])]
        (plainUrl "https" "example.com" "" "") = some (QImage.pixels [7]) ∧
      bufferedForUrl [(plainUrl "https" "example.com" "/favicon" "", QImage.pixels [7])]
        (plainUrl "https" "other.com" "" "") = none ∧
      (imageForUrl sampleEnv
        ⟨[(plainUrl "https" "example.com" "/favicon" "", QImage.pixels [7])],
          QImage.null, [], 0⟩
        (plainUrl "https" "example.com" "/" "") true).1 = QImage.pixels [7] :=
  ⟨by decide, by decide,
    (bufferedForUrl_earliest_match
      [(plainUrl "https" "example.com" "/favicon" "", QImage.pixels [7])]
      (plainUrl "https" "example.com" "/" "")).2.2.2.2 sampleEnv QImage.null [] 0 true
      (QImage.pixels [7]) (by decide) (by decide)⟩

/-- C7: for a query URL with a non-empty host, when some buffered record has exactly the
query's host, `imageForDomain` returns the image of the earliest such record, whatever
the table holds and whatever `allowEmpty` is; the buffer loop never gives the image of a
record with another host, and gives nothing when no record has the query's host. -/
theorem imageForDomain_earliest_host_match (buffer : List BufferedIcon) (url : QUrl) :
    (∀ (env : Env) (m : QImage) (icons : List IconRow) (n : Nat) (allowEmpty : Bool)
          (before after : List BufferedIcon) (ic : BufferedIcon),
        url.host ≠ "" → buffer = before ++ ic :: after →
        (∀ x ∈ before, x.1.host ≠ url.host) → ic.1.host = url.host →
        (imageForDomain env ⟨buffer, m, icons, n⟩ url allowEmpty).1 = ic.2) ∧
      (∀ image, bufferedForDomain buffer url = some image →
        ∃ before ic after, buffer = before ++ ic :: after ∧
          (∀ x ∈ before, x.1.host ≠ url.host) ∧ ic.1.host = url.host ∧ ic.2 = image) ∧
      (bufferedForDomain buffer url = none ↔ ∀ ic ∈ buffer, ic.1.host ≠ url.host) := by
  refine ⟨?_, fun image => (bufferedForDomain_eq_some buffer url image).1,
    bufferedForDomain_eq_none buffer url⟩
  intro env m icons n allowEmpty before after ic hh hb hbefore hic
  have : bufferedForDomain buffer url = some ic.2 :=
    (bufferedForDomain_eq_some buffer url ic.2).2 ⟨before, ic, after, hb, hbefore, hic, rfl⟩
  rw [imageForDomain_of_buffered env ⟨buffer, m, icons, n⟩ url allowEmpty ic.2 hh this]

/-- C7 at the sample buffer `[(https://a.example.com/x, Y)]`: host `a.example.com` gives
`Y`, host `b.example.com` finds nothing in the buffer. -/
theorem imageForDomain_earliest_host_match_witness :
    (imageForDomain sampleEnv
        ⟨[(plainUrl "https" "a.example.com" "/x" "", QImage.pixels [9])], QImage.null, [], 0⟩
        (plainUrl "https" "a.example.com" "" "") false).1 = QImage.pixels [9] ∧
      bufferedForDomain [(plainUrl "https" "a.example.com" "/x" "", QImage.pixels [9])]
        (plainUrl "https" "b.example.com" "" "") = none :=
  ⟨(imageForDomain_earliest_host_match
      [(plainUrl "https" "a.example.com" "/x" "", QImage.pixels [9])]
      (plainUrl "https" "a.example.com" "" "")).1 sampleEnv QImage.null [] 0 false [] []
      (plainUrl "https" "a.example.com" "/x" "", QImage.pixels [9])
      (by decide) rfl (by simp) (by decide),
    by decide⟩

/-- C9: a lookup that finds nothing ends in the fallback value, the null image when
`allowEmpty` is true and the placeholder when it is false: for `imageForUrl` when the
URL's path is empty, and for `imageForDomain` when its host is empty, whatever the buffer
and the table hold; and for both when no buffered record matches and the table query
gives no row, in particular when the buffer and the table are empty. -/
theorem lookup_miss_gives_fallback (env : Env) (s : State) (url : QUrl) (allowEmpty : Bool) :
    (url.path = "" →
        (imageForUrl env s url allowEmpty).1 =
          if allowEmpty = true then QImage.null else (emptyWebImage env s).1) ∧
      (url.host = "" →
        (imageForDomain env s url allowEmpty).1 =
          if allowEmpty = true then QImage.null else (emptyWebImage env s).1) ∧
      ((∀ ic ∈ s.m_iconBuffer, startsWith ic.1.toString url.toString = false) →
        selectIconGlobStartingWith s.icons url.toEncoded = none →
        (imageForUrl env s url allowEmpty).1 =
          if allowEmpty = true then QImage.null else (emptyWebImage env s).1) ∧
      ((∀ ic ∈ s.m_iconBuffer, ic.1.host ≠ url.host) →
        selectIconGlobContaining s.icons url.host = none →
        (imageForDomain env s url allowEmpty).1 =
          if allowEmpty = true then QImage.null else (emptyWebImage env s).1) ∧
      (s.m_iconBuffer = [] → s.icons = [] →
        (imageForUrl env s url allowEmpty).1 =
            (if allowEmpty = true then QImage.null else (emptyWebImage env s).1) ∧
          (imageForDomain env s url allowEmpty).1 =
            (if allowEmpty = true then QImage.null else (emptyWebImage env s).1)) := by
  refine ⟨?_, ?_, ?_, ?_, ?_⟩
  · intro h
    unfold imageForUrl
    rw [if_pos h, fallbackImage_fst]
  · intro h
    unfold imageForDomain
    rw [if_pos h, fallbackImage_fst]
  · intro hb hq
    by_cases h : url.path = ""
    · unfold imageForUrl
      rw [if_pos h, fallbackImage_fst]
    · rw [imageForUrl_of_miss env s url allowEmpty
        ((bufferedForUrl_eq_none _ _).2 hb) hq, fallbackImage_fst]
  · intro hb hq
    rw [imageForDomain_of_miss env s url allowEmpty
      ((bufferedForDomain_eq_none _ _).2 hb) hq, fallbackImage_fst]
  · intro hb hi
    constructor
    · rw [imageForUrl_of_miss env s url allowEmpty (by rw [hb]; rfl) (by rw [hi]; rfl),
        fallbackImage_fst]
    · rw [imageForDomain_of_miss env s url allowEmpty (by rw [hb]; rfl) (by rw [hi]; rfl),
        fallbackImage_fst]

/-- C9 at a sample lookup: with an empty buffer and an empty table, `imageForUrl` and
`imageForDomain` without `allowEmpty` return the placeholder. -/
theorem lookup_miss_gives_fallback_witness :
    (imageForUrl sampleEnv emptyState (plainUrl "https" "example.com" "/a" "") false).1 =
        QImage.pixels [0] ∧
      (imageForDomain sampleEnv emptyState (plainUrl "https" "example.com" "/a" "") false).1 =
        QImage.pixels [0] :=
  (lookup_miss_gives_fallback sampleEnv emptyState
    (plainUrl "https" "example.com" "/a" "") false).2.2.2.2 rfl rfl

/-! ## Clearing -/

/-- C10: after `clearIconsDatabase` the buffer is empty and the table has no rows, so
`imageForUrl` and `imageForDomain` without `allowEmpty` return the placeholder for every
URL, the same placeholder as before the call; and clearing twice gives the state that
clearing once gives. -/
theorem clearIconsDatabase_empties (env : Env) (s : State) (url : QUrl) :
    (clearIconsDatabase s).m_iconBuffer = [] ∧
      (clearIconsDatabase s).icons = [] ∧
      (imageForUrl env (clearIconsDatabase s) url false).1 = (emptyWebImage env s).1 ∧
      (imageForDomain env (clearIconsDatabase s) url false).1 = (emptyWebImage env s).1 ∧
      clearIconsDatabase (clearIconsDatabase s) = clearIconsDatabase s := by
  refine ⟨rfl, rfl, ?_, ?_, rfl⟩
  · rw [imageForUrl_of_miss env (clearIconsDatabase s) url false rfl rfl, fallbackImage_fst]
    exact emptyWebImage_fst_congr env s (clearIconsDatabase s) rfl
  · rw [imageForDomain_of_miss env (clearIconsDatabase s) url false rfl rfl, fallbackImage_fst]
    exact emptyWebImage_fst_congr env s (clearIconsDatabase s) rfl

/-! ## Writing the buffer back -/

theorem selectIdWhereUrl_iff (icons : List IconRow) (url : String) :
    selectIdWhereUrl icons url = true ↔ ∃ r ∈ icons, r.url = url := by
  unfold selectIdWhereUrl
  simp [List.any_eq_true]

theorem saveIconToDatabase_reconciled (env : Env) (icons : List IconRow) (ic : BufferedIcon) :
    Reconciled icons ic.1.toEncoded (env.savePng ic.2) (saveIconToDatabase env icons ic) := by
  unfold Reconciled saveIconToDatabase
  by_cases h : ∃ r ∈ icons, r.url = ic.1.toEncoded
  · rw [if_pos h, if_pos ((selectIdWhereUrl_iff _ _).2 h)]
    unfold updateIcon
    rw [List.forall₂_map_right_iff, List.forall₂_same]
    intro r _
    by_cases hr : r.url = ic.1.toEncoded <;> simp [hr]
  · have : ¬ selectIdWhereUrl icons ic.1.toEncoded = true := fun hs =>
      h ((selectIdWhereUrl_iff _ _).1 hs)
    rw [if_neg h, if_neg this]
    rfl

theorem reconciled_unique (before after after2 : List IconRow) (url : String)
    (icon : QByteArray) (h1 : Reconciled before url icon after)
    (h2 : Reconciled before url icon after2) : after = after2 := by
  unfold Reconciled at h1 h2
  by_cases h : ∃ r ∈ before, r.url = url
  · rw [if_pos h] at h1 h2
    clear h
    induction h1 generalizing after2 with
    | nil => cases h2; rfl
    | @cons a b l1 l2 hab _ ih =>
      cases h2 with
      | @cons _ b2 _ l3 hab2 hrest2 =>
        have hb : b = b2 := by
          cases b; cases b2
          simp only at hab hab2
          simp only [IconRow.mk.injEq]
          exact ⟨hab.1.trans hab2.1.symm, hab.2.trans hab2.2.symm⟩
        rw [hb, ih _ hrest2]
  · rw [if_neg h] at h1 h2
    rw [h1, h2]

theorem saveIconsLoop_reconciledInOrder (env : Env) (icons : List IconRow)
    (buffer : List BufferedIcon) :
    ReconciledInOrder env icons buffer (saveIconsLoop env icons buffer) := by
  induction buffer generalizing icons with
  | nil => exact ReconciledInOrder.nil icons
  | cons ic rest ih =>
    exact ReconciledInOrder.cons icons _ _ ic rest (saveIconToDatabase_reconciled env icons ic)
      (ih _)

theorem reconciledInOrder_unique (env : Env) (icons final : List IconRow)
    (buffer : List BufferedIcon) (h : ReconciledInOrder env icons buffer final) :
    final = saveIconsLoop env icons buffer := by
  induction h with
  | nil icons => rfl
  | cons icons next final ic rest hr _ ih =>
    have : next = saveIconToDatabase env icons ic :=
      reconciled_unique icons _ _ _ _ hr (saveIconToDatabase_reconciled env icons ic)
    rw [ih, this]
    rfl

/-- C2: `saveIconsToDatabase` reconciles the buffered records once each, in buffer order,
each against the table left by the record before it: a record whose fragment-stripped URL
has a row sets the icon of the rows with that URL and adds no row, any other record adds
exactly one row, and rows with another URL stay as they are. The table this leads to is
the only one that does so. Afterwards the buffer is empty; the placeholder and the
autosaver are not touched. -/
theorem saveIconsToDatabase_reconciles_in_order (env : Env) (s : State) :
    ReconciledInOrder env s.icons s.m_iconBuffer (saveIconsToDatabase env s).icons ∧
      (∀ final, ReconciledInOrder env s.icons s.m_iconBuffer final →
        final = (saveIconsToDatabase env s).icons) ∧
      (saveIconsToDatabase env s).m_iconBuffer = [] ∧
      (saveIconsToDatabase env s).m_emptyWebImage = s.m_emptyWebImage ∧
      (saveIconsToDatabase env s).changeOccurred = s.changeOccurred :=
  ⟨saveIconsLoop_reconciledInOrder env s.icons s.m_iconBuffer,
    fun final h => reconciledInOrder_unique env s.icons final s.m_iconBuffer h, rfl, rfl, rfl⟩

/-- C2 at a sample buffer: a record whose URL has a row replaces that row's bytes, a
record whose URL has none adds a row. -/
theorem saveIconsToDatabase_reconciles_in_order_witness :
    ReconciledInOrder sampleEnv [{ url := "https://a.com/", icon := [1] }]
      [(plainUrl "https" "a.com" "/" "", QImage.pixels [5]),
        (plainUrl "https" "b.com" "/" "top", QImage.pixels [6])]
      [{ url := "https://a.com/", icon := [137, 5] },
        { url := "https://b.com/", icon := [137, 6] }] :=
  (saveIconsToDatabase_reconciles_in_order sampleEnv
    { m_iconBuffer := [(plainUrl "https" "a.com" "/" "", QImage.pixels [5]),
        (plainUrl "https" "b.com" "/" "top", QImage.pixels [6])]
      m_emptyWebImage := QImage.null
      icons := [{ url := "https://a.com/", icon := [1] }]
      changeOccurred := 2 }).1

theorem saveIcon_nodup (env : Env) (s : State) (url : QUrl) (icon : QImage)
    (h : s.m_iconBuffer.Nodup) : (saveIcon env s url icon).m_iconBuffer.Nodup := by
  rcases saveIcon_buffer_cases env s url icon with hc | hc
  · rw [hc.1]; exact h
  · rw [hc.2.1, List.nodup_append]
    refine ⟨h, by simp, ?_⟩
    intro x hx hx2
    rw [List.mem_singleton] at hx2
    exact hc.1 (hx2 ▸ hx)

theorem step_nodup (env : Env) (s : State) (c : Call) (h : s.m_iconBuffer.Nodup) :
    (step env s c).m_iconBuffer.Nodup := by
  cases c with
  | saveIcon url icon => exact saveIcon_nodup env s url icon h
  | saveIconsToDatabase => exact List.nodup_nil
  | clearIconsDatabase => exact List.nodup_nil

theorem run_nodup (env : Env) (s : State) (calls : List Call) (h : s.m_iconBuffer.Nodup) :
    (run env s calls).m_iconBuffer.Nodup := by
  induction calls generalizing s with
  | nil => exact h
  | cons c cs ih => exact ih _ (step_nodup env s c h)

/-- A buffered record stays buffered while only `saveIcon` is called. -/
theorem run_saveIcons_mem (env : Env) (s : State) (others : List BufferedIcon)
    (item : BufferedIcon) (h : item ∈ s.m_iconBuffer) :
    item ∈ (run env s (others.map (fun r => Call.saveIcon r.1 r.2))).m_iconBuffer := by
  induction others generalizing s with
  | nil => exact h
  | cons r rest ih =>
    apply ih
    show item ∈ (saveIcon env s r.1 r.2).m_iconBuffer
    rcases saveIcon_buffer_cases env s r.1 r.2 with hc | hc
    · rw [hc.1]; exact h
    · rw [hc.2.1]; exact List.mem_append_left _ h

/-- The placeholder handed out is the same after any number of `saveIcon` calls. -/
theorem run_saveIcons_emptyWebImage (env : Env) (s : State) (others : List BufferedIcon) :
    (emptyWebImage env (run env s (others.map (fun r => Call.saveIcon r.1 r.2)))).1 =
      (emptyWebImage env s).1 := by
  induction others generalizing s with
  | nil => rfl
  | cons r rest ih =>
    exact (ih (saveIcon env s r.1 r.2)).trans (saveIcon_emptyWebImage env s r.1 r.2)

/-- C5: in every state reached from an empty buffer by `saveIcon`, `saveIconsToDatabase`
and `clearIconsDatabase` calls no two buffered records are equal; and calling `saveIcon`
with a record a second time, directly after the first call or after other records were
recorded in between, leaves the buffer as it is. -/
theorem buffer_has_no_duplicates (env : Env) (s0 : State) (calls : List Call)
    (h0 : s0.m_iconBuffer = []) :
    (run env s0 calls).m_iconBuffer.Nodup ∧
      ∀ (url : QUrl) (icon : QImage) (others : List BufferedIcon),
        (saveIcon env
            (run env (saveIcon env (run env s0 calls) url icon)
              (others.map (fun r => Call.saveIcon r.1 r.2))) url icon).m_iconBuffer =
          (run env (saveIcon env (run env s0 calls) url icon)
            (others.map (fun r => Call.saveIcon r.1 r.2))).m_iconBuffer := by
  refine ⟨run_nodup env s0 calls (by rw [h0]; exact List.nodup_nil), ?_⟩
  intro url icon others
  generalize run env s0 calls = s
  by_cases hrej : env.isPrivate = true ∨ url.scheme ∈ ignoredSchemes ∨
      icon = (emptyWebImage env s).1
  · refine (saveIcon_rejected env _ url icon ?_).1
    rw [run_saveIcons_emptyWebImage, saveIcon_emptyWebImage]
    exact hrej
  · have hmem : (url, icon) ∈ (saveIcon env s url icon).m_iconBuffer := by
      simp only [not_or] at hrej
      obtain ⟨hp, hs, hi⟩ := hrej
      rw [saveIcon_accepted env s url icon (by simpa using hp) hs hi]
      by_cases hm : (url, icon) ∈ s.m_iconBuffer
      · simp [hm, emptyWebImage_buffer]
      · simp [hm]
    have hmem2 := run_saveIcons_mem env _ others _ hmem
    rcases saveIcon_buffer_cases env
      (run env (saveIcon env s url icon) (others.map (fun r => Call.saveIcon r.1 r.2)))
      url icon with hc | hc
    · exact hc.1
    · exact absurd hmem2 hc.1

/-- C5 at a sample sequence: recording an icon, another one, and the first again leaves
two records. -/
theorem buffer_has_no_duplicates_witness :
    (run sampleEnv emptyState
        [Call.saveIcon (plainUrl "https" "a.com" "/" "") (QImage.pixels [5]),
          Call.saveIcon (plainUrl "https" "b.com" "/" "") (QImage.pixels [6]),
          Call.saveIcon (plainUrl "https" "a.com" "/" "") (QImage.pixels [5])]).m_iconBuffer.Nodup ∧
      (run sampleEnv emptyState
        [Call.saveIcon (plainUrl "https" "a.com" "/" "") (QImage.pixels [5]),
          Call.saveIcon (plainUrl "https" "b.com" "/" "") (QImage.pixels [6]),
          Call.saveIcon (plainUrl "https" "a.com" "/" "") (QImage.pixels [5])]).m_iconBuffer =
        [(plainUrl "https" "a.com" "/" "", QImage.pixels [5]),
          (plainUrl "https" "b.com" "/" "", QImage.pixels [6])] :=
  ⟨(buffer_has_no_duplicates sampleEnv emptyState _ rfl).1, by decide⟩

/-! ## Recording, writing back, looking up -/

theorem bufferedForUrl_mem (buffer : List BufferedIcon) (url : QUrl) (image : QImage)
    (h : bufferedForUrl buffer url = some image) : ∃ ic ∈ buffer, ic.2 = image := by
  obtain ⟨before, ic, after, hb, _, _, hi⟩ := (bufferedForUrl_eq_some buffer url image).1 h
  exact ⟨ic, by rw [hb]; simp, hi⟩

theorem bufferedForDomain_mem (buffer : List BufferedIcon) (url : QUrl) (image : QImage)
    (h : bufferedForDomain buffer url = some image) : ∃ ic ∈ buffer, ic.2 = image := by
  obtain ⟨before, ic, after, hb, _, _, hi⟩ := (bufferedForDomain_eq_some buffer url image).1 h
  exact ⟨ic, by rw [hb]; simp, hi⟩

theorem selectIconGlobStartingWith_mem (icons : List IconRow) (u : String) (ba : QByteArray)
    (h : selectIconGlobStartingWith icons u = some ba) : ∃ r ∈ icons, r.icon = ba := by
  unfold selectIconGlobStartingWith at h
  rw [Option.map_eq_some'] at h
  obtain ⟨r, hr, hi⟩ := h
  exact ⟨r, List.mem_of_find?_eq_some hr, hi⟩

theorem selectIconGlobContaining_mem (icons : List IconRow) (host : String) (ba : QByteArray)
    (h : selectIconGlobContaining icons host = some ba) : ∃ r ∈ icons, r.icon = ba := by
  unfold selectIconGlobContaining at h
  rw [Option.map_eq_some'] at h
  obtain ⟨r, hr, hi⟩ := h
  exact ⟨r, List.mem_of_find?_eq_some hr, hi⟩

/-- Every row left by writing a record is an old row or carries the record's bytes. -/
theorem saveIconToDatabase_icon_cases (env : Env) (icons : List IconRow) (ic : BufferedIcon)
    (row : IconRow) (h : row ∈ saveIconToDatabase env icons ic) :
    row ∈ icons ∨ row.icon = env.savePng ic.2 := by
  unfold saveIconToDatabase at h
  by_cases hs : selectIdWhereUrl icons ic.1.toEncoded = true
  · rw [if_pos hs] at h
    unfold updateIcon at h
    obtain ⟨r, hr, he⟩ := List.mem_map.1 h
    by_cases hu : r.url = ic.1.toEncoded
    · rw [if_pos hu] at he
      right; rw [← he]
    · rw [if_neg hu] at he
      left; rw [← he]; exact hr
  · rw [if_neg hs] at h
    unfold insertIcon at h
    rcases List.mem_append.1 h with h | h
    · exact Or.inl h
    · right
      rw [List.mem_singleton] at h
      rw [h]

theorem saveIconsLoop_icon_cases (env : Env) (icons : List IconRow)
    (buffer : List BufferedIcon) (row : IconRow)
    (h : row ∈ saveIconsLoop env icons buffer) :
    row ∈ icons ∨ ∃ ic ∈ buffer, row.icon = env.savePng ic.2 := by
  induction buffer generalizing icons with
  | nil => exact Or.inl h
  | cons ic rest ih =>
    rcases ih _ h with h1 | ⟨x, hx, he⟩
    · rcases saveIconToDatabase_icon_cases env icons ic row h1 with h2 | h2
      · exact Or.inl h2
      · exact Or.inr ⟨ic, by simp, h2⟩
    · exact Or.inr ⟨x, by simp [hx], he⟩

theorem looksUpNonNull_step (env : Env) (placeholder : QImage) (s : State) (c : Call)
    (hcodec : ∀ image, image ≠ QImage.null → env.fromData (env.savePng image) ≠ QImage.null)
    (hc : ∀ url icon, c = Call.saveIcon url icon → icon ≠ QImage.null)
    (h : LooksUpNonNull env placeholder s) : LooksUpNonNull env placeholder (step env s c) := by
  obtain ⟨hb, ht, hph⟩ := h
  cases c with
  | saveIcon url icon =>
    refine ⟨?_, ?_, ?_⟩
    · intro ic hic
      change ic ∈ (saveIcon env s url icon).m_iconBuffer at hic
      rcases saveIcon_buffer_cases env s url icon with hcase | hcase
      · rw [hcase.1] at hic; exact hb ic hic
      · rw [hcase.2.1] at hic
        rcases List.mem_append.1 hic with hic | hic
        · exact hb ic hic
        · rw [List.mem_singleton] at hic
          rw [hic]; exact hc url icon rfl
    · intro r hr
      change r ∈ (saveIcon env s url icon).icons at hr
      rw [saveIcon_icons] at hr
      exact ht r hr
    · exact (saveIcon_emptyWebImage env s url icon).trans hph
  | saveIconsToDatabase =>
    refine ⟨fun ic hic => absurd hic (List.not_mem_nil ic), ?_, ?_⟩
    · intro r hr
      rcases saveIconsLoop_icon_cases env s.icons s.m_iconBuffer r hr with h1 | ⟨ic, hic, he⟩
      · exact ht r h1
      · rw [he]; exact hcodec ic.2 (hb ic hic)
    · exact (emptyWebImage_fst_congr env s (saveIconsToDatabase env s) rfl).trans hph
  | clearIconsDatabase =>
    refine ⟨fun ic hic => absurd hic (List.not_mem_nil ic),
      fun r hr => absurd hr (List.not_mem_nil r), ?_⟩
    exact (emptyWebImage_fst_congr env s (clearIconsDatabase s) rfl).trans hph

theorem looksUpNonNull_run (env : Env) (placeholder : QImage) (s : State) (calls : List Call)
    (hcodec : ∀ image, image ≠ QImage.null → env.fromData (env.savePng image) ≠ QImage.null)
    (hc : ∀ url icon, Call.saveIcon url icon ∈ calls → icon ≠ QImage.null)
    (h : LooksUpNonNull env placeholder s) :
    LooksUpNonNull env placeholder (run env s calls) := by
  induction calls generalizing s with
  | nil => exact h
  | cons c cs ih =>
    apply ih
    · intro url icon hm
      exact hc url icon (List.mem_cons_of_mem _ hm)
    · apply looksUpNonNull_step env placeholder s c hcodec _ h
      intro url icon he
      exact hc url icon (by rw [he]; exact List.mem_cons_self _ _)

/-- C1, as the code has it: a null page icon is buffered like any other image that is not
the placeholder, and both lookups then return that null image although `allowEmpty` is
false and the placeholder is not null. -/
theorem lookup_returns_buffered_null_image :
    (emptyWebImage sampleEnv emptyState).1 ≠ QImage.null ∧
      (imageForUrl sampleEnv
        (run sampleEnv emptyState
          [Call.saveIcon (plainUrl "https" "example.com" "/" "") QImage.null])
        (plainUrl "https" "example.com" "/" "") false).1 = QImage.null ∧
      (imageForDomain sampleEnv
        (run sampleEnv emptyState
          [Call.saveIcon (plainUrl "https" "example.com" "/" "") QImage.null])
        (plainUrl "https" "example.com" "/" "") false).1 = QImage.null := by
  decide

/-- C1, amended: in every state reached from an empty buffer by `saveIcon`,
`saveIconsToDatabase` and `clearIconsDatabase` calls in which every recorded page icon
renders to a non-null image, `imageForUrl` and `imageForDomain` without `allowEmpty`
return a non-null image for every query URL, provided the placeholder is not null, every
row the table starts with decodes to a non-null image, and a non-null image still decodes
to a non-null image after it was encoded. -/
theorem lookup_non_null_of_non_null_icons (env : Env) (s0 : State) (calls : List Call)
    (url : QUrl) (hbuffer : s0.m_iconBuffer = [])
    (hplaceholder : (emptyWebImage env s0).1 ≠ QImage.null)
    (htable : ∀ r ∈ s0.icons, env.fromData r.icon ≠ QImage.null)
    (hcodec : ∀ image, image ≠ QImage.null → env.fromData (env.savePng image) ≠ QImage.null)
    (hicons : ∀ u icon, Call.saveIcon u icon ∈ calls → icon ≠ QImage.null) :
    (imageForUrl env (run env s0 calls) url false).1 ≠ QImage.null ∧
      (imageForDomain env (run env s0 calls) url false).1 ≠ QImage.null := by
  have hinv : LooksUpNonNull env (emptyWebImage env s0).1 (run env s0 calls) :=
    looksUpNonNull_run env _ s0 calls hcodec hicons
      ⟨by rw [hbuffer]; intro ic hic; exact absurd hic (List.not_mem_nil ic), htable, rfl⟩
  generalize run env s0 calls = s at hinv
  obtain ⟨hb, ht, hph⟩ := hinv
  have hfall : (fallbackImage env s false).1 ≠ QImage.null := by
    rw [fallbackImage_fst]
    simpa [hph] using hplaceholder
  constructor
  · unfold imageForUrl
    by_cases hp : url.path = ""
    · rw [if_pos hp]; exact hfall
    · rw [if_neg hp]
      cases hbuf : bufferedForUrl s.m_iconBuffer url with
      | some image =>
        obtain ⟨ic, hic, he⟩ := bufferedForUrl_mem _ _ _ hbuf
        simpa [← he] using hb ic hic
      | none =>
        cases hq : selectIconGlobStartingWith s.icons url.toEncoded with
        | some ba =>
          obtain ⟨r, hr, he⟩ := selectIconGlobStartingWith_mem _ _ _ hq
          simpa [← he] using ht r hr
        | none => exact hfall
  · unfold imageForDomain
    by_cases hp : url.host = ""
    · rw [if_pos hp]; exact hfall
    · rw [if_neg hp]
      cases hbuf : bufferedForDomain s.m_iconBuffer url with
      | some image =>
        obtain ⟨ic, hic, he⟩ := bufferedForDomain_mem _ _ _ hbuf
        simpa [← he] using hb ic hic
      | none =>
        cases hq : selectIconGlobContaining s.icons url.host with
        | some ba =>
          obtain ⟨r, hr, he⟩ := selectIconGlobContaining_mem _ _ _ hq
          simpa [← he] using ht r hr
        | none => exact hfall

/-- C1, amended, at a sample sequence: an icon is recorded and written back, then looked
up by URL and by domain. -/
theorem lookup_non_null_of_non_null_icons_witness :
    (imageForUrl sampleEnv
        (run sampleEnv emptyState
          [Call.saveIcon (plainUrl "https" "example.com" "/" "") (QImage.pixels [4]),
            Call.saveIconsToDatabase])
        (plainUrl "https" "example.com" "/" "") false).1 ≠ QImage.null ∧
      (imageForDomain sampleEnv
        (run sampleEnv emptyState
          [Call.saveIcon (plainUrl "https" "example.com" "/" "") (QImage.pixels [4]),
            Call.saveIconsToDatabase])
        (plainUrl "https" "example.com" "/" "") false).1 ≠ QImage.null :=
  lookup_non_null_of_non_null_icons sampleEnv emptyState
    [Call.saveIcon (plainUrl "https" "example.com" "/" "") (QImage.pixels [4]),
      Call.saveIconsToDatabase]
    (plainUrl "https" "example.com" "/" "") rfl (by decide)
    (fun r hr => absurd hr (List.not_mem_nil r))
    (fun image h => by cases image with
      | null => exact absurd rfl h
      | pixels data => simp [sampleEnv, samplePng, sampleFromData])
    (fun u icon h => by
      simp only [List.mem_cons, Call.saveIcon.injEq, List.mem_singleton, reduceCtorEq,
        or_false, List.mem_nil_iff] at h
      rw [h.2]; simp)

end IconProvider
